import Mathlib

/-!
Verification of the `discord-localization` repository's lookup component
(`src/discord/ext/localization/localization.py` and `errors.py`).

Shallow embedding conventions:
* Python values occurring in a translation document are modelled by `PyValue`:
  strings, lists, dicts (as association lists with distinct keys, matching the
  insertion-ordered unique-key semantics of Python dicts), integers for other
  leaves, and `none` for Python's `None` (which `dict.get` returns on a miss).
* Python strings are modelled through their character lists where character-level
  scanning matters (the `"." in text` test, `text.split(".")`, and `str.format`
  placeholder parsing), so that every definition evaluates by `rfl`/`decide`.
* `str.format` (a standard-library collaborator) is modelled for keyword fields:
  `{name}` is substituted from the keyword arguments, `{{`/`}}` are brace
  escapes, a missing keyword raises `KeyError(name)`, and malformed braces raise
  `ValueError`, matching CPython's observable behaviour on the shapes the
  repository uses. Keyword argument values are modelled as strings.
* Raised exceptions are modelled by `Except PyError`; calls to `logging.error`
  are modelled by returning, next to the result, the list of logged error
  objects in emission order.
-/

deriving instance DecidableEq for Except

namespace DiscordLocalization

inductive PyValue where
  | str (s : String)
  | list (xs : List PyValue)
  | dict (entries : List (String × PyValue))
  | int (n : Int)
  | none

mutual

/-- Structural equality on modelled Python values (`==` on documents). -/
def PyValue.beq : PyValue → PyValue → Bool
  | .str a, .str b => a == b
  | .list a, .list b => beqPyList a b
  | .dict a, .dict b => beqPyDict a b
  | .int a, .int b => a == b
  | .none, .none => true
  | _, _ => false

/-- Elementwise equality of value lists. -/
def beqPyList : List PyValue → List PyValue → Bool
  | [], [] => true
  | x :: xs, y :: ys => PyValue.beq x y && beqPyList xs ys
  | _, _ => false

/-- Entrywise equality of dict entry lists. -/
def beqPyDict : List (String × PyValue) → List (String × PyValue) → Bool
  | [], [] => true
  | (k, v) :: es, (l, w) :: fs => k == l && PyValue.beq v w && beqPyDict es fs
  | _, _ => false

end

mutual

theorem PyValue.beq_iff : ∀ (a b : PyValue), PyValue.beq a b = true ↔ a = b
  | .str a, .str b => by simp [PyValue.beq]
  | .list a, .list b => by simp [PyValue.beq, beqPyList_iff a b]
  | .dict a, .dict b => by simp [PyValue.beq, beqPyDict_iff a b]
  | .int a, .int b => by simp [PyValue.beq]
  | .none, .none => by simp [PyValue.beq]
  | .str _, .list _ | .str _, .dict _ | .str _, .int _ | .str _, .none
  | .list _, .str _ | .list _, .dict _ | .list _, .int _ | .list _, .none
  | .dict _, .str _ | .dict _, .list _ | .dict _, .int _ | .dict _, .none
  | .int _, .str _ | .int _, .list _ | .int _, .dict _ | .int _, .none
  | .none, .str _ | .none, .list _ | .none, .dict _ | .none, .int _ => by
    simp [PyValue.beq]

theorem beqPyList_iff : ∀ (xs ys : List PyValue), beqPyList xs ys = true ↔ xs = ys
  | [], [] => by simp [beqPyList]
  | [], _ :: _ => by simp [beqPyList]
  | _ :: _, [] => by simp [beqPyList]
  | x :: xs, y :: ys => by
    simp [beqPyList, PyValue.beq_iff x y, beqPyList_iff xs ys]

theorem beqPyDict_iff :
    ∀ (es fs : List (String × PyValue)), beqPyDict es fs = true ↔ es = fs
  | [], [] => by simp [beqPyDict]
  | [], _ :: _ => by simp [beqPyDict]
  | _ :: _, [] => by simp [beqPyDict]
  | (k, v) :: es, (l, w) :: fs => by
    simp [beqPyDict, PyValue.beq_iff v w, beqPyDict_iff es fs, and_assoc]

end

instance : DecidableEq PyValue := fun a b =>
  decidable_of_iff (PyValue.beq a b = true) (PyValue.beq_iff a b)

instance : BEq PyValue := ⟨PyValue.beq⟩

instance : LawfulBEq PyValue where
  eq_of_beq h := (PyValue.beq_iff _ _).mp h
  rfl := (PyValue.beq_iff _ _).mpr rfl

/-- Python truthiness (`bool(v)`) for the modelled values. -/
def PyValue.truthy : PyValue → Bool
  | .str s => !s.isEmpty
  | .list xs => !xs.isEmpty
  | .dict es => !es.isEmpty
  | .int n => n != 0
  | .none => false

/-- `type(v).__name__` for the modelled values. -/
def PyValue.typeName : PyValue → String
  | .str _ => "str"
  | .list _ => "list"
  | .dict _ => "dict"
  | .int _ => "int"
  | .none => "NoneType"

/-- `v is None`. -/
def PyValue.isNone : PyValue → Bool
  | .none => true
  | _ => false

/-- `d.get(k)`: the stored value on a hit, Python `None` on a miss. -/
def pyGet (d : List (String × PyValue)) (k : String) : PyValue :=
  match List.lookup k d with
  | some v => v
  | Option.none => PyValue.none

/-- `d.get(k)` where `k` may be Python `None` (string keys never equal `None`). -/
def pyGetOpt (d : List (String × PyValue)) (k : Option String) : PyValue :=
  match k with
  | some s => pyGet d s
  | Option.none => PyValue.none

/-- The guild-like capability: a `discord.Guild` stub carrying the stringified
`preferred_locale` tag. -/
structure Guild where
  preferred_locale : String
deriving DecidableEq, Repr

/-- The `locale` argument accepted by `localize`: a raw string, a
`discord.Locale` value (stringifying to its tag), a `discord.Guild`, a
`discord.Interaction` or `discord.ext.commands.Context` (each wrapping a guild),
or a value of any other type (carrying its type name). -/
inductive LocaleRef where
  | str (s : String)
  | locale (s : String)
  | guild (g : Guild)
  | interaction (g : Guild)
  | context (g : Guild)
  | other (typeName : String)
deriving DecidableEq, Repr

/-- The exceptions the lookup component can raise (`errors.py` plus the
built-in `TypeError`, `KeyError`, `ValueError`, `AttributeError`, `IndexError`).
`wrongLocalizationFormat` carries the `locale` argument exactly as the code
passes it (`WrongLocalizationFormat(locale, type(...))` receives the original
`locale` parameter of `one`). -/
inductive PyError where
  | typeError (receivedType : String)
  | invalidLocale (locale : String)
  | localizationNotFound (text : String) (locale : String)
  | wrongLocalizationFormat (locale : LocaleRef) (typeName : String)
  | keyError (name : String)
  | valueError (msg : String)
  | attributeError (typeName : String)
  | indexError
deriving DecidableEq, Repr

/-- The state of a `Localization` object after construction: the loaded
document `_file`, `_default_locale`, and the `_error` flag. -/
structure Localization where
  file : List (String × PyValue)
  default_locale : Option String
  error : Bool
deriving DecidableEq

/-- The `isinstance` dispatch at the top of `localize` (lines 198-205):
guilds expose `str(locale.preferred_locale)`, interactions and contexts expose
`str(locale.guild.preferred_locale)`, strings and `Locale` values stringify,
and anything else raises `TypeError` naming the received type. -/
def resolveLocale : LocaleRef → Except PyError String
  | .str s => .ok s
  | .locale s => .ok s
  | .guild g => .ok g.preferred_locale
  | .interaction g => .ok g.preferred_locale
  | .context g => .ok g.preferred_locale
  | .other tn => .error (.typeError tn)

/-- `self._file.get(locale) or self._file.get(self._default_locale)`
(line 207): the requested locale's entry if truthy, else the default locale's
entry. -/
def selectedLocalizations (st : Localization) (tag : String) : PyValue :=
  let a := pyGet st.file tag
  if a.truthy then a else pyGetOpt st.file st.default_locale

/-- One segment of a parsed format string: a literal character or a
`{name}` replacement field. -/
inductive FmtItem where
  | lit (c : Char)
  | field (name : String)
deriving DecidableEq, Repr

/-- Scanner for `str.format` templates. The second argument is `some acc`
(reversed characters of the field name read so far) while inside a `{...}`
replacement field and `Option.none` outside one. -/
def parseFmtAux : List Char → Option (List Char) → Except PyError (List FmtItem)
  | [], Option.none => .ok []
  | [], some _ => .error (.valueError "Single open brace encountered")
  | c :: rest, some acc =>
    if c = '}' then
      (FmtItem.field (String.mk acc.reverse) :: ·) <$> parseFmtAux rest Option.none
    else
      parseFmtAux rest (some (c :: acc))
  | '{' :: '{' :: rest, Option.none =>
    (FmtItem.lit '{' :: ·) <$> parseFmtAux rest Option.none
  | '}' :: '}' :: rest, Option.none =>
    (FmtItem.lit '}' :: ·) <$> parseFmtAux rest Option.none
  | '{' :: rest, Option.none => parseFmtAux rest (some [])
  | '}' :: _, Option.none => .error (.valueError "Single close brace encountered")
  | c :: rest, Option.none => (FmtItem.lit c :: ·) <$> parseFmtAux rest Option.none

/-- Parse a `str.format` template into literal and field items. -/
def parseFmt (s : String) : Except PyError (List FmtItem) :=
  parseFmtAux s.data Option.none

/-- Keyword-argument lookup for placeholder substitution. -/
def lookupStr (kw : List (String × String)) (k : String) : Option String :=
  List.lookup k kw

/-- Substitute parsed format items left to right; the first field whose name is
missing from the keyword arguments raises `KeyError(name)`. -/
def renderItems (kw : List (String × String)) : List FmtItem → Except PyError String
  | [] => .ok ""
  | FmtItem.lit c :: rest => (String.singleton c ++ ·) <$> renderItems kw rest
  | FmtItem.field nm :: rest =>
    match lookupStr kw nm with
    | some v => (v ++ ·) <$> renderItems kw rest
    | Option.none => .error (.keyError nm)

/-- `s.format(**kwargs)`. -/
def pyFormat (s : String) (kw : List (String × String)) : Except PyError String :=
  (parseFmt s).bind (renderItems kw)

mutual

/-- `Localization.format_strings` (lines 150-174): recursively format every
string leaf of a dict / list / string structure with the keyword arguments;
other leaves pass through unchanged. -/
def Localization.format_strings (kw : List (String × String)) :
    PyValue → Except PyError PyValue
  | .str s => (pyFormat s kw).map PyValue.str
  | .list xs => (formatStringsList kw xs).map PyValue.list
  | .dict es => (formatStringsDict kw es).map PyValue.dict
  | .int n => .ok (.int n)
  | .none => .ok .none

/-- The list comprehension inside `format_strings`. -/
def formatStringsList (kw : List (String × String)) :
    List PyValue → Except PyError (List PyValue)
  | [] => .ok []
  | x :: xs => do
    let y ← Localization.format_strings kw x
    let ys ← formatStringsList kw xs
    pure (y :: ys)

/-- The dict comprehension inside `format_strings` (values formatted, keys kept). -/
def formatStringsDict (kw : List (String × String)) :
    List (String × PyValue) → Except PyError (List (String × PyValue))
  | [] => .ok []
  | (k, v) :: es => do
    let w ← Localization.format_strings kw v
    let ws ← formatStringsDict kw es
    pure ((k, w) :: ws)

end

/-- `"." in text`, with the path separator `"."`. -/
def containsSep (text : String) : Bool :=
  text.data.contains '.'

/-- `text.split(".")` for the single-character separator: occurrences of `'.'`
delimit the segments and empty segments are kept, as in Python. -/
def splitSepAux : List Char → List Char → List String
  | [], acc => [String.mk acc.reverse]
  | c :: rest, acc =>
    if c = '.' then String.mk acc.reverse :: splitSepAux rest []
    else splitSepAux rest (c :: acc)

/-- `text.split(".")`. -/
def splitSep (text : String) : List String :=
  splitSepAux text.data []

/-- The traversal loop of `localize` (lines 217-225): starting from the
selected sub-mapping, follow the key segments; the loop breaks to `None` as
soon as `value.get(key)` misses or the current value is not a dict. -/
def traversePath : PyValue → List String → PyValue
  | v, [] => v
  | .dict es, k :: rest =>
    let v := pyGet es k
    if v.isNone then PyValue.none else traversePath v rest
  | _, _ :: _ => PyValue.none

/-- Step 3 of `localize` (lines 215-227): dotted keys are split on the
separator and traversed; other keys are a direct `localizations.get(text)`,
which raises `AttributeError` when the selected value is not a dict. -/
def resolveKey (locs : PyValue) (key : String) : Except PyError PyValue :=
  if containsSep key then .ok (traversePath locs (splitSep key))
  else
    match locs with
    | .dict es => .ok (pyGet es key)
    | v => .error (.attributeError v.typeName)

/-- `Localization.localize` (lines 176-236). The result is the returned value
or raised exception, paired with the list of errors passed to
`logging.error` along the way. -/
def Localization.localize (st : Localization) (text : String) (locale : LocaleRef)
    (kwargs : List (String × String)) :
    Except PyError PyValue × List PyError :=
  match resolveLocale locale with
  | .error e => (.error e, [])
  | .ok tag =>
    let locs := selectedLocalizations st tag
    if locs.truthy then
      match resolveKey locs text with
      | .error e => (.error e, [])
      | .ok value =>
        if value.isNone then
          if st.error then (.error (.localizationNotFound text tag), [])
          else (.ok (.str text), [.localizationNotFound text tag])
        else
          (Localization.format_strings kwargs value, [])
    else
      if st.error then (.error (.invalidLocale tag), [])
      else (.ok (.str text), [.invalidLocale tag])

/-- `Localization.one` (lines 240-276): delegate to `localize`; a non-list
result raises or logs `WrongLocalizationFormat` (with the original `locale`
argument); otherwise index `[0]` when `number == 1` and `[-1]` otherwise,
raising `IndexError` on an empty list. The count is modelled as a rational to
cover Python's exact `int`/`float` comparison with `1`. -/
def Localization.one (st : Localization) (text : String) (number : ℚ)
    (locale : LocaleRef) (kwargs : List (String × String)) :
    Except PyError PyValue × List PyError :=
  match st.localize text locale kwargs with
  | (.error e, logs) => (.error e, logs)
  | (.ok lt, logs) =>
    match lt with
    | .list xs =>
      if number = 1 then
        match xs with
        | [] => (.error .indexError, logs)
        | x :: _ => (.ok x, logs)
      else
        match xs.getLast? with
        | Option.none => (.error .indexError, logs)
        | some x => (.ok x, logs)
    | v =>
      if st.error then (.error (.wrongLocalizationFormat locale v.typeName), logs)
      else (.ok (.str text), logs ++ [.wrongLocalizationFormat locale v.typeName])

/-- `Localization.__eq__` (lines 135-136): two stores compare equal exactly
when their loaded documents compare equal. -/
def Localization.eq (a b : Localization) : Bool :=
  a.file = b.file

/-- `Localization.__ne__` (lines 138-139). -/
def Localization.ne (a b : Localization) : Bool :=
  a.file ≠ b.file

/-- Manual traversal `document[locale][s₁][s₂]...[sₙ]`: each step requires the
current value to be a mapping that contains the segment. -/
def manualTraverse : PyValue → List String → Option PyValue
  | v, [] => some v
  | .dict es, k :: rest =>
    match List.lookup k es with
    | some v => manualTraverse v rest
    | Option.none => Option.none
  | _, _ :: _ => Option.none

theorem PyValue.isNone_eq_false {v : PyValue} (h : v ≠ PyValue.none) :
    v.isNone = false := by
  cases v <;> simp [PyValue.isNone] at h ⊢

theorem splitSepAux_shape (cs : List Char) :
    ∀ acc, ∃ s ss, splitSepAux cs acc = s :: ss := by
  induction cs with
  | nil => intro acc; exact ⟨_, _, rfl⟩
  | cons c rest ih =>
    intro acc
    by_cases hc : c = '.'
    · exact ⟨String.mk acc.reverse, splitSepAux rest [], by simp [splitSepAux, hc]⟩
    · obtain ⟨s, ss, hs⟩ := ih (c :: acc)
      exact ⟨s, ss, by simp [splitSepAux, hc, hs]⟩

theorem splitSep_shape (key : String) :
    ∃ s ss, splitSep key = s :: ss :=
  splitSepAux_shape key.data []

theorem traversePath_of_manualTraverse :
    ∀ (ss : List String) (w v : PyValue),
      manualTraverse w ss = some v → v ≠ PyValue.none → traversePath w ss = v := by
  intro ss
  induction ss with
  | nil =>
    intro w v h _
    simp [manualTraverse] at h
    simp [traversePath, h]
  | cons k rest ih =>
    intro w v h hv
    cases w with
    | dict es =>
      rw [manualTraverse] at h
      cases hl : List.lookup k es with
      | none => rw [hl] at h; exact absurd h (by simp)
      | some w' =>
        rw [hl] at h
        have hw' : w' ≠ PyValue.none := by
          intro he
          subst he
          cases rest with
          | nil =>
            simp [manualTraverse] at h
            exact hv h.symm
          | cons r rs => simp [manualTraverse] at h
        rw [traversePath]
        simp only [pyGet, hl, PyValue.isNone_eq_false hw', Bool.false_eq_true,
          if_false]
        exact ih w' v h hv
    | str s => simp [manualTraverse] at h
    | list xs => simp [manualTraverse] at h
    | int n => simp [manualTraverse] at h
    | none => simp [manualTraverse] at h

theorem selectedLocalizations_cases (st : Localization) (tag : String) :
    selectedLocalizations st tag = pyGet st.file tag ∨
    selectedLocalizations st tag = pyGetOpt st.file st.default_locale := by
  by_cases h : (pyGet st.file tag).truthy <;> simp [selectedLocalizations, h]

theorem renderItems_error_of_missing (kw : List (String × String)) :
    ∀ (items : List FmtItem) (nm : String),
      FmtItem.field nm ∈ items → lookupStr kw nm = Option.none →
      ∃ nm2, FmtItem.field nm2 ∈ items ∧ lookupStr kw nm2 = Option.none ∧
        renderItems kw items = Except.error (PyError.keyError nm2) := by
  intro items
  induction items with
  | nil => intro nm hmem _; simp at hmem
  | cons it rest ih =>
    intro nm hmem habs
    cases it with
    | lit c =>
      have hmem' : FmtItem.field nm ∈ rest := by
        rcases List.mem_cons.mp hmem with h | h
        · exact absurd h (by simp)
        · exact h
      obtain ⟨nm2, h1, h2, h3⟩ := ih nm hmem' habs
      exact ⟨nm2, List.mem_cons_of_mem _ h1, h2, by simp [renderItems, h3]⟩
    | field f =>
      cases hf : lookupStr kw f with
      | none =>
        exact ⟨f, List.mem_cons_self _ _, hf, by simp [renderItems, hf]⟩
      | some w =>
        have hmem' : FmtItem.field nm ∈ rest := by
          rcases List.mem_cons.mp hmem with h | h
          · cases h
            rw [hf] at habs
            exact absurd habs (by simp)
          · exact h
        obtain ⟨nm2, h1, h2, h3⟩ := ih nm hmem' habs
        exact ⟨nm2, List.mem_cons_of_mem _ h1, h2, by simp [renderItems, hf, h3]⟩

/-- Claim C1: for every locale tag present in the document and every dotted key
whose path exists as nested mappings under that locale (with a value that is
not Python `None`), `localize` returns exactly the manually traversed value
`document[locale][s1]...[sn]` with placeholder substitution applied, and logs
nothing. -/
theorem c1_dotted_path_equivalence (st : Localization) (tag key : String)
    (kwargs : List (String × String)) (v : PyValue)
    (hdot : containsSep key = true)
    (hman : manualTraverse (pyGet st.file tag) (splitSep key) = some v)
    (hv : v ≠ PyValue.none) :
    Localization.localize st key (.str tag) kwargs =
      (Localization.format_strings kwargs v, []) := by
  obtain ⟨k, rest, hsplit⟩ := splitSep_shape key
  rw [hsplit] at hman
  cases hw : pyGet st.file tag with
  | dict es =>
    rw [hw] at hman
    have hes : es ≠ [] := by
      intro he
      subst he
      rw [manualTraverse] at hman
      simp [List.lookup] at hman
    have hsel : selectedLocalizations st tag = PyValue.dict es := by
      simp [selectedLocalizations, hw, PyValue.truthy, hes]
    have hpath : traversePath (PyValue.dict es) (k :: rest) = v :=
      traversePath_of_manualTraverse _ _ _ hman hv
    have hne : es.isEmpty = false := by simp [hes]
    rw [Localization.localize]
    simp only [resolveLocale, hsel, PyValue.truthy, hne, Bool.not_false,
      if_true, resolveKey, hdot, if_pos, hsplit, hpath,
      PyValue.isNone_eq_false hv, Bool.false_eq_true, if_false]
  | str s => rw [hw] at hman; simp [manualTraverse] at hman
  | list xs => rw [hw] at hman; simp [manualTraverse] at hman
  | int n => rw [hw] at hman; simp [manualTraverse] at hman
  | none => rw [hw] at hman; simp [manualTraverse] at hman

/-- Witness for C1 on the repository's own nested test document. -/
theorem c1_dotted_path_equivalence_witness :
    Localization.localize
        ⟨[("en", PyValue.dict [("a", PyValue.dict [("b", PyValue.dict
          [("c", PyValue.str "deep")])])])], Option.none, true⟩
        "a.b.c" (.str "en") [] = (Except.ok (PyValue.str "deep"), []) := by
  have h := c1_dotted_path_equivalence
    ⟨[("en", PyValue.dict [("a", PyValue.dict [("b", PyValue.dict
      [("c", PyValue.str "deep")])])])], Option.none, true⟩
    "en" "a.b.c" [] (PyValue.str "deep") (by decide) (by decide) (by decide)
  rw [h]
  rfl

/-- Claim C2: `localize` selects `document[tag]`, falls back to
`document[defaultLocale]` when the requested entry is absent or an empty
mapping, and when both are absent or empty it raises `InvalidLocale(tag)` under
`raiseOnError` and otherwise logs that error and returns the key unchanged. -/
theorem c2_locale_selection_fallback (st : Localization) (tag key : String)
    (kwargs : List (String × String)) :
    ((pyGet st.file tag).truthy = true →
      selectedLocalizations st tag = pyGet st.file tag)
    ∧ ((pyGet st.file tag = PyValue.none ∨ pyGet st.file tag = PyValue.dict []) →
      selectedLocalizations st tag = pyGetOpt st.file st.default_locale)
    ∧ ((pyGet st.file tag = PyValue.none ∨ pyGet st.file tag = PyValue.dict []) →
      (pyGetOpt st.file st.default_locale = PyValue.none ∨
        pyGetOpt st.file st.default_locale = PyValue.dict []) →
      Localization.localize st key (.str tag) kwargs =
        if st.error then (Except.error (PyError.invalidLocale tag), [])
        else (Except.ok (PyValue.str key), [PyError.invalidLocale tag]))
  := by
  refine ⟨fun h => by simp [selectedLocalizations, h], fun h => ?_, fun h h2 => ?_⟩
  · rcases h with h | h <;> simp [selectedLocalizations, h, PyValue.truthy]
  · have hsel : selectedLocalizations st tag = pyGetOpt st.file st.default_locale := by
      rcases h with h | h <;> simp [selectedLocalizations, h, PyValue.truthy]
    have hfp : (selectedLocalizations st tag).truthy = false := by
      rw [hsel]
      rcases h2 with h2 | h2 <;> simp [h2, PyValue.truthy]
    rw [Localization.localize]
    simp only [resolveLocale, hfp, Bool.false_eq_true, if_false]

/-- Witness for C2: requested locale and default locale both absent. -/
theorem c2_locale_selection_fallback_witness :
    Localization.localize
        ⟨[("en", PyValue.dict [("k", PyValue.str "v")])], Option.none, true⟩
        "k" (.str "fr") [] = (Except.error (PyError.invalidLocale "fr"), []) := by
  have h := (c2_locale_selection_fallback
    ⟨[("en", PyValue.dict [("k", PyValue.str "v")])], Option.none, true⟩
    "fr" "k" []).2.2 (Or.inl rfl) (Or.inl rfl)
  rw [h]
  rfl

/-- Claim C3: for a key that resolves to nothing in both the requested and the
default locale's sub-mapping (the selected one being nonempty), `localize` with
`raiseOnError = false` returns the key unchanged and logs exactly one
diagnostic, and with `raiseOnError = true` raises
`LocalizationNotFound(key, tag)`. -/
theorem c3_missing_key_fallback (st : Localization) (tag key : String)
    (kwargs : List (String × String))
    (h1 : resolveKey (pyGet st.file tag) key = Except.ok PyValue.none)
    (h2 : resolveKey (pyGetOpt st.file st.default_locale) key =
      Except.ok PyValue.none)
    (h3 : (selectedLocalizations st tag).truthy = true) :
    (st.error = false →
      Localization.localize st key (.str tag) kwargs =
        (Except.ok (PyValue.str key), [PyError.localizationNotFound key tag]))
    ∧ (st.error = true →
      Localization.localize st key (.str tag) kwargs =
        (Except.error (PyError.localizationNotFound key tag), [])) := by
  have hres : resolveKey (selectedLocalizations st tag) key =
      Except.ok PyValue.none := by
    rcases selectedLocalizations_cases st tag with h | h
    · rw [h]; exact h1
    · rw [h]; exact h2
  constructor <;> intro he <;>
    · rw [Localization.localize]
      simp only [resolveLocale, h3, if_true, hres, PyValue.isNone, he,
        Bool.false_eq_true, if_false, if_true]

/-- Witness for C3: key "b" absent from the only locale, both modes exercised
via the graceful store. -/
theorem c3_missing_key_fallback_witness :
    Localization.localize
        ⟨[("en", PyValue.dict [("a", PyValue.str "x")])], some "en", false⟩
        "b" (.str "en") [] =
      (Except.ok (PyValue.str "b"), [PyError.localizationNotFound "b" "en"]) := by
  have h := (c3_missing_key_fallback
    ⟨[("en", PyValue.dict [("a", PyValue.str "x")])], some "en", false⟩
    "en" "b" [] (by decide) (by decide) (by decide)).1 rfl
  rw [h]

/-- Claim C4: when the value `localize` resolves is a (nonempty) list, `one`
returns its first element when the count equals `1` and its last element for
every other count, including non-integral counts. -/
theorem c4_plural_selection (st : Localization) (key : String) (number : ℚ)
    (ref : LocaleRef) (kwargs : List (String × String)) (xs : List PyValue)
    (logs : List PyError)
    (h : Localization.localize st key ref kwargs =
      (Except.ok (PyValue.list xs), logs))
    (hne : xs ≠ []) :
    Localization.one st key number ref kwargs =
      if number = 1 then (Except.ok (xs.head hne), logs)
      else (Except.ok (xs.getLast hne), logs) := by
  rw [Localization.one, h]
  by_cases hn : number = 1
  · cases xs with
    | nil => exact absurd rfl hne
    | cons x xs' => simp [hn, List.head]
  · simp [hn, List.getLast?_eq_getLast xs hne]

/-- Witness for C4 on the spec's apple document: counts 1, 5 and 2.0. -/
theorem c4_plural_selection_witness :
    Localization.one
        ⟨[("en", PyValue.dict [("apple",
          PyValue.list [PyValue.str "one apple", PyValue.str "many apples"])])],
          Option.none, false⟩
        "apple" 1 (.str "en") [] = (Except.ok (PyValue.str "one apple"), [])
    ∧ Localization.one
        ⟨[("en", PyValue.dict [("apple",
          PyValue.list [PyValue.str "one apple", PyValue.str "many apples"])])],
          Option.none, false⟩
        "apple" 5 (.str "en") [] = (Except.ok (PyValue.str "many apples"), [])
    ∧ Localization.one
        ⟨[("en", PyValue.dict [("apple",
          PyValue.list [PyValue.str "one apple", PyValue.str "many apples"])])],
          Option.none, false⟩
        "apple" 2 (.str "en") [] = (Except.ok (PyValue.str "many apples"), []) := by
  refine ⟨?_, ?_, ?_⟩
  · rw [c4_plural_selection _ "apple" 1 (.str "en") []
      [PyValue.str "one apple", PyValue.str "many apples"] [] (by decide)
      (by decide)]
    rfl
  · rw [c4_plural_selection _ "apple" 5 (.str "en") []
      [PyValue.str "one apple", PyValue.str "many apples"] [] (by decide)
      (by decide)]
    rfl
  · rw [c4_plural_selection _ "apple" 2 (.str "en") []
      [PyValue.str "one apple", PyValue.str "many apples"] [] (by decide)
      (by decide)]
    rfl

/-- Claim C5 as amended: when `one` resolves a value that is not a list, it
fails with `WrongLocalizationFormat` carrying the `locale` argument exactly as
it was passed (not the resolved tag) together with the value's type name when
`raiseOnError` is true, and otherwise logs that error and returns the key
unchanged. -/
theorem c5_wrong_format (st : Localization) (key : String) (number : ℚ)
    (ref : LocaleRef) (kwargs : List (String × String)) (v : PyValue)
    (logs : List PyError)
    (h : Localization.localize st key ref kwargs = (Except.ok v, logs))
    (hnl : ∀ xs, v ≠ PyValue.list xs) :
    Localization.one st key number ref kwargs =
      if st.error then
        (Except.error (PyError.wrongLocalizationFormat ref v.typeName), logs)
      else
        (Except.ok (PyValue.str key),
          logs ++ [PyError.wrongLocalizationFormat ref v.typeName]) := by
  rw [Localization.one, h]
  cases v with
  | list xs => exact absurd rfl (hnl xs)
  | str s => rfl
  | dict es => rfl
  | int n => rfl
  | none => rfl

/-- Witness for C5 (amended): a string-valued key under a string locale ref. -/
theorem c5_wrong_format_witness :
    Localization.one
        ⟨[("de", PyValue.dict [("k", PyValue.str "hi")])], Option.none, true⟩
        "k" 1 (.str "de") [] =
      (Except.error
        (PyError.wrongLocalizationFormat (LocaleRef.str "de") "str"), []) := by
  have h := c5_wrong_format
    ⟨[("de", PyValue.dict [("k", PyValue.str "hi")])], Option.none, true⟩
    "k" 1 (.str "de") [] (PyValue.str "hi") [] (by decide)
    (fun xs h => PyValue.noConfusion h)
  rw [h]
  rfl

/-- Counterexample to C5 as stated: with a guild-like locale reference whose
preferred locale resolves to "de", the raised `WrongLocalizationFormat` carries
the guild object itself, not the resolved tag "de". -/
theorem c5_counterexample :
    Localization.one
        ⟨[("de", PyValue.dict [("k", PyValue.str "hi")])], Option.none, true⟩
        "k" 1 (LocaleRef.guild ⟨"de"⟩) [] =
      (Except.error
        (PyError.wrongLocalizationFormat (LocaleRef.guild ⟨"de"⟩) "str"), [])
    ∧ resolveLocale (LocaleRef.guild ⟨"de"⟩) = Except.ok "de"
    ∧ LocaleRef.guild ⟨"de"⟩ ≠ LocaleRef.str "de" :=
  ⟨by decide, rfl, by decide⟩

/-- Claim C6: a guild-like reference whose preferred locale stringifies to
"de", and interaction/context references wrapping that guild, make `localize`
return exactly what it returns for the plain tag "de". -/
theorem c6_locale_ref_resolution (st : Localization) (key : String)
    (kwargs : List (String × String)) (g : Guild)
    (h : g.preferred_locale = "de") :
    Localization.localize st key (.guild g) kwargs =
      Localization.localize st key (.str "de") kwargs
    ∧ Localization.localize st key (.interaction g) kwargs =
      Localization.localize st key (.str "de") kwargs
    ∧ Localization.localize st key (.context g) kwargs =
      Localization.localize st key (.str "de") kwargs := by
  refine ⟨?_, ?_, ?_⟩ <;>
    · rw [Localization.localize, Localization.localize]
      simp only [resolveLocale, h]

/-- Witness for C6 at a concrete store and key. -/
theorem c6_locale_ref_resolution_witness :
    Localization.localize
        ⟨[("de", PyValue.dict [("k", PyValue.str "hallo")])], Option.none, false⟩
        "k" (.guild ⟨"de"⟩) [] =
      Localization.localize
        ⟨[("de", PyValue.dict [("k", PyValue.str "hallo")])], Option.none, false⟩
        "k" (.str "de") []
    ∧ Localization.localize
        ⟨[("de", PyValue.dict [("k", PyValue.str "hallo")])], Option.none, false⟩
        "k" (.context ⟨"de"⟩) [] =
      Localization.localize
        ⟨[("de", PyValue.dict [("k", PyValue.str "hallo")])], Option.none, false⟩
        "k" (.str "de") [] := by
  have h := c6_locale_ref_resolution
    ⟨[("de", PyValue.dict [("k", PyValue.str "hallo")])], Option.none, false⟩
    "k" [] ⟨"de"⟩ rfl
  exact ⟨h.1, h.2.2⟩

/-- Claim C7: a locale reference of any unrecognized type makes `localize` and
`one` raise `TypeError` identifying the received type, for every store and so
regardless of the `raiseOnError` setting. -/
theorem c7_unsupported_locale_ref (st : Localization) (key : String)
    (kwargs : List (String × String)) (tn : String) (number : ℚ) :
    Localization.localize st key (.other tn) kwargs =
      (Except.error (PyError.typeError tn), [])
    ∧ Localization.one st key number (.other tn) kwargs =
      (Except.error (PyError.typeError tn), []) := by
  constructor
  · simp [Localization.localize, resolveLocale]
  · simp [Localization.one, Localization.localize, resolveLocale]

/-- Counterexample to C8 as stated: substituting into the leaf "hi {name}"
with no parameters raises `KeyError("name")` instead of not raising. -/
theorem c8_counterexample :
    Localization.format_strings [] (PyValue.str "hi {name}") =
      Except.error (PyError.keyError "name") := by decide

/-- Claim C8 as amended: a string leaf containing a placeholder whose name is
absent from the supplied parameters makes placeholder substitution raise a
`KeyError` naming a missing placeholder; this raising policy is what
`format_strings` applies to every string leaf. -/
theorem c8_missing_placeholder_raises (kw : List (String × String)) (s : String)
    (items : List FmtItem) (nm : String)
    (hp : parseFmt s = Except.ok items)
    (hmem : FmtItem.field nm ∈ items)
    (habs : lookupStr kw nm = Option.none) :
    ∃ nm2, FmtItem.field nm2 ∈ items ∧ lookupStr kw nm2 = Option.none ∧
      Localization.format_strings kw (PyValue.str s) =
        Except.error (PyError.keyError nm2) := by
  obtain ⟨nm2, h1, h2, h3⟩ := renderItems_error_of_missing kw items nm hmem habs
  refine ⟨nm2, h1, h2, ?_⟩
  rw [Localization.format_strings, pyFormat, hp]
  simp [Except.bind, h3, Except.map]

/-- Witness for C8 (amended) on the leaf "hi {name}" with no parameters. -/
theorem c8_missing_placeholder_raises_witness :
    ∃ nm2,
      FmtItem.field nm2 ∈
        [FmtItem.lit 'h', FmtItem.lit 'i', FmtItem.lit ' ', FmtItem.field "name"]
      ∧ lookupStr [] nm2 = Option.none
      ∧ Localization.format_strings [] (PyValue.str "hi {name}") =
          Except.error (PyError.keyError nm2) :=
  c8_missing_placeholder_raises [] "hi {name}"
    [FmtItem.lit 'h', FmtItem.lit 'i', FmtItem.lit ' ', FmtItem.field "name"]
    "name" (by decide) (by decide) rfl

/-- Claim C9: two stores compare equal exactly when their documents are equal;
stores sharing a document but differing in default locale or error mode compare
equal; and the inequality operation is the negation of equality. -/
theorem c9_store_equality (a b : Localization) :
    (Localization.eq a b = true ↔ a.file = b.file)
    ∧ Localization.ne a b = !Localization.eq a b
    ∧ ∀ (f : List (String × PyValue)) (d1 d2 : Option String) (e1 e2 : Bool),
        Localization.eq ⟨f, d1, e1⟩ ⟨f, d2, e2⟩ = true := by
  refine ⟨by simp [Localization.eq], ?_, fun f d1 d2 e1 e2 => by
    simp [Localization.eq]⟩
  by_cases h : a.file = b.file <;> simp [Localization.eq, Localization.ne, h]

/-- Witness for C9: same document, different default locale and error mode. -/
theorem c9_store_equality_witness :
    Localization.eq
        ⟨[("en", PyValue.dict [("k", PyValue.str "v")])], Option.none, false⟩
        ⟨[("en", PyValue.dict [("k", PyValue.str "v")])], some "en", true⟩ = true
    ∧ Localization.ne
        ⟨[("en", PyValue.dict [("k", PyValue.str "v")])], Option.none, false⟩
        ⟨[("en", PyValue.dict [("k", PyValue.str "v")])], some "en", true⟩ =
      false := by
  have h := c9_store_equality
    ⟨[("en", PyValue.dict [("k", PyValue.str "v")])], Option.none, false⟩
    ⟨[("en", PyValue.dict [("k", PyValue.str "v")])], some "en", true⟩
  have he := (h.1.mpr rfl)
  exact ⟨he, by rw [h.2.1, he]; rfl⟩

/-- Claim C10: when `localize` resolves a key to the empty list, `one` raises
an unhandled `IndexError` for every count and every store (hence under both
error modes), and neither the raise branch nor the key-as-text fallback of
`WrongLocalizationFormat` applies. -/
theorem c10_empty_list_index_error (st : Localization) (key : String)
    (number : ℚ) (ref : LocaleRef) (kwargs : List (String × String))
    (logs : List PyError)
    (h : Localization.localize st key ref kwargs =
      (Except.ok (PyValue.list []), logs)) :
    Localization.one st key number ref kwargs =
      (Except.error PyError.indexError, logs) := by
  rw [Localization.one, h]
  by_cases hn : number = 1 <;> simp [hn, List.getLast?]

/-- Witness for C10: an empty plural list, exercised under both error modes. -/
theorem c10_empty_list_index_error_witness :
    Localization.one
        ⟨[("en", PyValue.dict [("empty", PyValue.list [])])], Option.none, false⟩
        "empty" 1 (.str "en") [] = (Except.error PyError.indexError, [])
    ∧ Localization.one
        ⟨[("en", PyValue.dict [("empty", PyValue.list [])])], Option.none, true⟩
        "empty" 5 (.str "en") [] = (Except.error PyError.indexError, []) := by
  constructor
  · exact c10_empty_list_index_error _ "empty" 1 (.str "en") [] [] (by decide)
  · exact c10_empty_list_index_error _ "empty" 5 (.str "en") [] [] (by decide)

end DiscordLocalization
